import Mathlib

/-!
Verification of the confluent console server core (consoleserver.py).

The definitions below are a shallow embedding of the Python source:
pure computations become Lean functions, the per-node ConsoleHandler
state becomes an explicit structure, and every side effect (records
sent to subscribers, log events, spawned connect attempts) becomes an
explicit event in an output trace.  The pyte terminal emulator and the
eventlet runtime are external libraries; where the code hands bytes to
the emulator we track the byte stream, and where it spawns a
greenthread we record an event.
-/

set_option maxRecDepth 8192

namespace ConfluentConsole

/-- Character strings are modelled as lists of characters (Python 2 str
and unicode collapse to this for the fragments we need). -/
abbrev Str := List Char

def s2l (s : String) : Str := s.data

/-- Byte strings for ASCII-only literals: each character is one byte. -/
def sbytes (s : String) : List Nat := s.data.map Char.toNat

/-- An attached client session, identified by id, carrying its username
(ConsoleSession as seen from the handler's livesessions set). -/
structure Session where
  id : Nat
  username : String
  deriving DecidableEq, Repr

/-- Control records sent to subscribers through _send_rcpts. -/
inductive Rcpt where
  | connUpd (connectstate : String) (error : Option String)
  | clientcount (n : Nat)
  | deleting
  | bytes (b : List Nat)
  deriving DecidableEq, Repr

/-- Events appended to the node log through ConsoleHandler.log. -/
inductive LogEvent where
  | clientconnect (username : String) (eventdata : Nat)
  | clientdisconnect (username : String) (eventdata : Nat)
  | consoleconnect
  | consoledisconnect
  | dataLog (b : List Nat) (eventdata : Nat)
  deriving DecidableEq, Repr

/-- Observable effects of a handler operation, in order: a record
delivered to one subscriber, a log event, a spawned connect attempt, or
a ping of the backend console. -/
inductive Ev where
  | sent (sid : Nat) (r : Rcpt)
  | logev (e : LogEvent)
  | spawnConnect
  | ping
  deriving DecidableEq, Repr

/-- ConsoleHandler state (consoleserver.py, __init__).  The pyte screen
is tracked as the byte stream that determines it (bufimage); the
incremental UTF-8 decoder state is the list of pending bytes
(utf8state); reconnect is the delay of the armed one-shot timer. -/
structure HandlerState where
  connectstate : String
  error : Option String
  retrytime : Nat
  isondemand : Bool
  dologging : Bool
  islocal : Bool
  isalive : Bool
  lasttime : Nat
  appmodedetected : Bool
  shiftin : Option Char
  clearpending : Bool
  livesessions : List Session
  console : Bool
  connectionthread : Bool
  attribwatcher : Bool
  reconnect : Option ℚ
  bufimage : List Nat
  utf8state : List Nat
  deriving DecidableEq, Repr

/-- _send_rcpts: deliver one record to every live session in turn. -/
def sendRcpts (st : HandlerState) (r : Rcpt) : List Ev :=
  st.livesessions.map (fun s => Ev.sent s.id r)

/-- ConsoleHandler.log: drops the event when _dologging is false. -/
def logIf (st : HandlerState) (e : LogEvent) : List Ev :=
  if st.dologging then [Ev.logev e] else []

/-- The fixed notice fed into the emulator by clearbuffer.  It starts
with ESC c, a full terminal reset, so after feeding it the emulator
state is this constant stream regardless of history. -/
def clearNoticeBytes : List Nat :=
  sbytes ("\x1bc[no replay buffer due to console.logging attribute set to "
    ++ "none or interactive,\r\nconnection loss, or service restart]")

/-- ConsoleHandler.clearbuffer: feed the reset notice and mark a
pending clear for subscribers. -/
def clearbuffer (st : HandlerState) : HandlerState :=
  { st with bufimage := clearNoticeBytes, clearpending := true }

/-- ConsoleHandler._get_retry_time.  clustsize is
len(cfgmgr._cfgstore[nodes]); rnd models random.random(), a value in
[0, 1).  Returns the updated _retrytime counter and the armed delay.
Python floats are modelled as rationals (0.05 = 5/100). -/
def get_retry_time (clustsize retrytime0 : Nat) (rnd : ℚ) : Nat × ℚ :=
  let rt1 := retrytime0 * 2 + 1
  let rt2 := if rt1 > 120 then 120 else rt1
  let retrytime : ℚ := (clustsize : ℚ) * (5 / 100) * (rt2 : ℚ)
  let retrytime := if retrytime > 120 then (120 : ℚ) else retrytime
  (rt2, retrytime + retrytime * rnd)

/-- ConsoleHandler._got_connected: connected state, counter reset,
consoleconnect event, status record to subscribers. -/
def got_connected (st : HandlerState) : HandlerState × List Ev :=
  let st := { st with connectstate := "connected", retrytime := 0 }
  (st, logIf st .consoleconnect ++ sendRcpts st (.connUpd "connected" none))

/-- The effective backoff base delay as a function of cluster size and
the (already updated) retry counter: min, not max, of 120 and
clustsize * 0.05 * counter. -/
def effdelay (clustsize counter : Nat) : ℚ :=
  min ((clustsize : ℚ) * (5 / 100) * (counter : ℚ)) 120

/-- A concrete handler state used by witnesses. -/
def sampleState : HandlerState :=
  { connectstate := "unconnected", error := none, retrytime := 0,
    isondemand := false, dologging := true, islocal := true, isalive := true,
    lasttime := 0, appmodedetected := false, shiftin := none,
    clearpending := false, livesessions := [⟨1, "alice"⟩], console := true,
    connectionthread := false, attribwatcher := true, reconnect := none,
    bufimage := [], utf8state := [] }

/-- C1 counterexample: the claim says the armed delay equals
max(120, cluster_size * 0.05 * retry_time) times a factor in [1, 2),
hence is at least 120 seconds.  With one node in the cluster, a first
failure (previous counter 0) and random() = 0 the code arms 0.05
seconds, which no factor f with 1 <= f can reach from a base of
max(120, 0.05) = 120. -/
theorem c1_counterexample :
    (get_retry_time 1 0 0).2 = 5 / 100 ∧
    ¬ ∃ f : ℚ, 1 ≤ f ∧ f < 2 ∧
      (get_retry_time 1 0 0).2 =
        max 120 ((1 : ℚ) * (5 / 100) * (((get_retry_time 1 0 0).1 : ℕ) : ℚ)) * f := by
  have hval : (get_retry_time 1 0 0).2 = 5 / 100 := by
    norm_num [get_retry_time]
  have hrt : (get_retry_time 1 0 0).1 = 1 := by
    norm_num [get_retry_time]
  refine ⟨hval, ?_⟩
  rintro ⟨f, hf1, -, he⟩
  rw [hval, hrt] at he
  have hmax : max (120 : ℚ) (1 * (5 / 100) * ((1 : ℕ) : ℚ)) = 120 := by
    norm_num
  rw [hmax] at he
  nlinarith

/-- C1 (amended): each failed connect updates the retry counter to
min(2 * previous + 1, 120); the armed delay equals
min(120, cluster_size * 0.05 * counter) multiplied by (1 + random) with
random in [0, 1), i.e. by a factor in [1, 2); the base delay is
non-decreasing from one failure to the next; and a successful connect
resets the counter to 0. -/
theorem c1_amended (c t : Nat) (r : ℚ) (st : HandlerState)
    (ht : t ≤ 120) (hr0 : 0 ≤ r) (hr1 : r < 1) :
    (get_retry_time c t r).1 = min (t * 2 + 1) 120 ∧
    (get_retry_time c t r).2 = effdelay c (get_retry_time c t r).1 * (1 + r) ∧
    1 ≤ 1 + r ∧ 1 + r < 2 ∧
    effdelay c t ≤ effdelay c (get_retry_time c t r).1 ∧
    (got_connected st).1.retrytime = 0 := by
  have hcounter : (get_retry_time c t r).1 = min (t * 2 + 1) 120 := by
    simp only [get_retry_time]
    split <;> omega
  refine ⟨hcounter, ?_, by linarith, by linarith, ?_, rfl⟩
  · simp only [get_retry_time, effdelay]
    have hminq : ∀ q : ℚ, (if q > 120 then (120 : ℚ) else q) = min q 120 := by
      intro q
      rw [min_def]
      split <;> split <;> first | rfl | linarith
    split
    case isTrue h =>
      rw [hminq]
      push_cast
      ring_nf
    case isFalse h =>
      rw [hminq]
      push_cast
      ring_nf
  · rw [hcounter]
    have hle : t ≤ min (t * 2 + 1) 120 := by omega
    have hcast : ((t : ℚ)) ≤ ((min (t * 2 + 1) 120 : ℕ) : ℚ) := by
      exact_mod_cast hle
    have hnn : (0 : ℚ) ≤ (c : ℚ) * (5 / 100) := by positivity
    exact min_le_min (by nlinarith) le_rfl

/-- C1 witness: the amended theorem instantiated at cluster size 1,
previous counter 0, random draw 1/2. -/
theorem c1_witness :
    ((0 : Nat) ≤ 120 ∧ (0 : ℚ) ≤ 1 / 2 ∧ (1 / 2 : ℚ) < 1) ∧
    ((get_retry_time 1 0 (1 / 2)).1 = min (0 * 2 + 1) 120 ∧
     (get_retry_time 1 0 (1 / 2)).2 =
       effdelay 1 (get_retry_time 1 0 (1 / 2)).1 * (1 + 1 / 2) ∧
     1 ≤ 1 + (1 / 2 : ℚ) ∧ 1 + (1 / 2 : ℚ) < 2 ∧
     effdelay 1 0 ≤ effdelay 1 (get_retry_time 1 0 (1 / 2)).1 ∧
     (got_connected sampleState).1.retrytime = 0) :=
  ⟨⟨by norm_num, by norm_num, by norm_num⟩,
   c1_amended 1 0 (1 / 2) sampleState (by norm_num) (by norm_num) (by norm_num)⟩

/-- ConsoleHandler._disconnect: kill the connect thread, clear the
terminal buffer, and, when a backend console is held, log the
disconnect, drop the handle, go unconnected and notify subscribers. -/
def disconnect_ (st : HandlerState) : HandlerState × List Ev :=
  let st := { st with connectionthread := false }
  let st := clearbuffer st
  if st.console then
    let evs := logIf st .consoledisconnect
    let st := { st with console := false, connectstate := "unconnected" }
    (st, evs ++ sendRcpts st (.connUpd "unconnected" none))
  else (st, [])

/-- Outcome of asking the plugin layer for a backend console: a genuine
Console instance, a NotImplementedException, a NotFoundException, some
other exception (logged to the trace log, console left None), or a
value that is not a Console instance. -/
inductive CreateRes where
  | console
  | notimpl
  | notfound
  | raised
  | notConsole
  deriving DecidableEq, Repr

/-- Outcome of Console.connect(callback). -/
inductive ConnRes where
  | ok
  | badcreds
  | unreachable
  | raised
  deriving DecidableEq, Repr

/-- Common failure path of _connect_backend for a retryable error:
clear the buffer, record the error, go unconnected, notify
subscribers, then compute the backoff and arm the one-shot reconnect
timer (the timer was cancelled on entry, so the guard passes). -/
def failRetry (st : HandlerState) (e : String) (clustsize : Nat) (rnd : ℚ) :
    HandlerState × List Ev :=
  let st := clearbuffer st
  let st := { st with error := some e, connectstate := "unconnected" }
  let evs := sendRcpts st (.connUpd "unconnected" (some e))
  let rt := get_retry_time clustsize st.retrytime rnd
  ({ st with retrytime := rt.1, reconnect := some rt.2 }, evs)

/-- ConsoleHandler._connect_backend.  cr is the plugin create outcome,
conn the backend connect outcome (only reached with a real console),
clustsize and rnd feed _get_retry_time. -/
def connect_backend (st : HandlerState) (cr : CreateRes) (conn : ConnRes)
    (clustsize : Nat) (rnd : ℚ) : HandlerState × List Ev :=
  let st := { st with console := false }
  let st := { st with connectstate := "connecting" }
  let evs0 := sendRcpts st (.connUpd "connecting" none)
  let st := { st with reconnect := none }
  match cr with
  | .console =>
    let st := { st with attribwatcher := true }
    match conn with
    | .ok =>
      let (st, evs) := got_connected st
      (st, evs0 ++ evs)
    | .badcreds =>
      let (st, evs) := failRetry st "badcredentials" clustsize rnd
      (st, evs0 ++ evs)
    | .unreachable =>
      let (st, evs) := failRetry st "unreachable" clustsize rnd
      (st, evs0 ++ evs)
    | .raised =>
      let (st, evs) := failRetry st "unknown" clustsize rnd
      (st, evs0 ++ evs)
  | _ =>
    let st := clearbuffer st
    let st := { st with connectstate := "unconnected", error := some "misconfigured" }
    (st, evs0 ++ sendRcpts st (.connUpd "unconnected" (some "misconfigured")))

/-- What the misconfigured path must produce: buffer cleared, error and
state set, every subscriber notified, and no retry timer armed. -/
def misconfiguredOutcome (st : HandlerState) (out : HandlerState × List Ev) : Prop :=
  out.1.clearpending = true ∧
  out.1.bufimage = clearNoticeBytes ∧
  out.1.error = some "misconfigured" ∧
  out.1.connectstate = "unconnected" ∧
  out.2 = sendRcpts st (.connUpd "connecting" none)
    ++ sendRcpts st (.connUpd "unconnected" (some "misconfigured")) ∧
  out.1.reconnect = none

/-- What a retryable failure must produce: error recorded, unconnected,
every subscriber notified, and a backoff retry timer armed. -/
def retryOutcome (e : String) (st : HandlerState) (out : HandlerState × List Ev) : Prop :=
  out.1.error = some e ∧
  out.1.connectstate = "unconnected" ∧
  out.2 = sendRcpts st (.connUpd "connecting" none)
    ++ sendRcpts st (.connUpd "unconnected" (some e)) ∧
  out.1.reconnect.isSome = true

/-- C2: when the plugin signals not-implemented or not-found, raises
unexpectedly during create, or yields something that is not a Console
instance, _connect_backend clears the screen buffer, sets
error = misconfigured and connectstate = unconnected, notifies all
subscribers, and arms no retry timer; whereas the badcredentials,
unreachable and unknown connect failures each arm a backoff retry. -/
theorem c2_thm (st : HandlerState) (conn : ConnRes) (c : Nat) (r : ℚ) :
    misconfiguredOutcome st (connect_backend st .notimpl conn c r) ∧
    misconfiguredOutcome st (connect_backend st .notfound conn c r) ∧
    misconfiguredOutcome st (connect_backend st .raised conn c r) ∧
    misconfiguredOutcome st (connect_backend st .notConsole conn c r) ∧
    retryOutcome "badcredentials" st (connect_backend st .console .badcreds c r) ∧
    retryOutcome "unreachable" st (connect_backend st .console .unreachable c r) ∧
    retryOutcome "unknown" st (connect_backend st .console .raised c r) := by
  refine ⟨?_, ?_, ?_, ?_, ?_, ?_, ?_⟩ <;>
    simp [connect_backend, misconfiguredOutcome, retryOutcome, clearbuffer,
      failRetry, sendRcpts, got_connected]

/-- ConsoleHandler.close: mark dead, send the deleting record to every
still-attached subscriber, disconnect the backend, kill the connect
thread and remove the attribute watcher.  Note the subscriber set is
not cleared and the deleting record is sent on every call. -/
def close_ (st : HandlerState) : HandlerState × List Ev :=
  let st := { st with isalive := false }
  let evs := sendRcpts st .deleting
  let (st, evs2) := disconnect_ st
  let st := if st.console then { st with console := false } else st
  let st := { st with connectionthread := false }
  let st := { st with attribwatcher := false }
  (st, evs ++ evs2)

/-- The process-wide registry _handled_consoles, keyed by node (the
tenant is fixed within one configmanager here). -/
def Registry := List (String × HandlerState)

/-- disconnect_node: close and evict the handler when present (the
membership test makes the registry update idempotent). -/
def disconnect_node (reg : Registry) (node : String) : Registry :=
  List.filter (fun p => p.1 != node) reg

/-- Recognise a deleting record delivered to subscriber sid. -/
def deletingTo (sid : Nat) (e : Ev) : Bool :=
  match e with
  | .sent i .deleting => i == sid
  | _ => false

/-- Counting deleting records among those sent to a full session list. -/
theorem countP_deleting_map (l : List Session) (sid : Nat) :
    (l.map (fun s => Ev.sent s.id Rcpt.deleting)).countP (deletingTo sid)
      = l.countP (fun s => s.id == sid) := by
  rw [List.countP_map]; rfl

/-- Connection-state records are never counted as deleting records. -/
theorem countP_connupd_map (l : List Session) (sid : Nat) (cs : String)
    (e : Option String) :
    (l.map (fun s => Ev.sent s.id (Rcpt.connUpd cs e))).countP (deletingTo sid) = 0 := by
  rw [List.countP_map]
  exact List.countP_eq_zero.mpr (fun a _ => by simp [Function.comp, deletingTo])

/-- Composed form of countP_deleting_map, as left by List.countP_map. -/
theorem countP_comp_deleting (l : List Session) (sid : Nat) :
    List.countP (deletingTo sid ∘ fun s => Ev.sent s.id Rcpt.deleting) l
      = List.countP (fun s => s.id == sid) l := rfl

/-- Composed form of countP_connupd_map, as left by List.countP_map. -/
theorem countP_comp_connupd (l : List Session) (sid : Nat) (cs : String)
    (e : Option String) :
    List.countP (deletingTo sid ∘ fun s => Ev.sent s.id (Rcpt.connUpd cs e)) l = 0 :=
  List.countP_eq_zero.mpr (fun a _ => by simp [Function.comp, deletingTo])

/-- Normal form of close_ on the handler fields, used below. -/
theorem close_state (st : HandlerState) :
    (close_ st).1 =
      { st with
        isalive := false
        connectionthread := false
        attribwatcher := false
        bufimage := clearNoticeBytes
        clearpending := true
        console := false
        connectstate := (if st.console then "unconnected" else st.connectstate) } := by
  by_cases h : st.console <;>
    simp [close_, disconnect_, clearbuffer, h]

/-- C3 counterexample: with one attached subscriber (id 1), two
consecutive close() calls deliver the deleting record to that
subscriber twice, refuting "no subscriber receives a deleting record
more than once". -/
theorem c3_counterexample :
    sampleState.livesessions = [⟨1, "alice"⟩] ∧
    1 < (((close_ sampleState).2 ++ (close_ (close_ sampleState).1).2).countP
          (deletingTo 1)) := by
  constructor
  · rfl
  · decide

/-- C3 (amended): a second close() leaves the handler state and the
registry exactly as after the first close(), but each still-attached
subscriber is sent one deleting record per call (the subscriber set is
not cleared by close), so after two calls a subscriber has received it
twice. -/
theorem c3_amended (st : HandlerState) (reg : Registry) (node : String) (sid : Nat) :
    (close_ (close_ st).1).1 = (close_ st).1 ∧
    disconnect_node (disconnect_node reg node) node = disconnect_node reg node ∧
    ((close_ st).2.countP (deletingTo sid))
      = st.livesessions.countP (fun s => s.id == sid) ∧
    ((close_ (close_ st).1).2.countP (deletingTo sid))
      = st.livesessions.countP (fun s => s.id == sid) := by
  refine ⟨?_, ?_, ?_, ?_⟩
  · rw [close_state, close_state]
    by_cases h : st.console <;> simp [h]
  · simp [disconnect_node, List.filter_filter]
  · by_cases h : st.console <;> by_cases h2 : st.dologging <;>
      simp [close_, disconnect_, clearbuffer, sendRcpts, logIf, h, h2,
        List.countP_append, countP_deleting_map, countP_connupd_map,
        countP_comp_deleting, countP_comp_connupd, deletingTo]
  · rw [close_state]
    by_cases h : st.console <;> by_cases h2 : st.dologging <;>
      simp [close_, disconnect_, clearbuffer, sendRcpts, logIf, h, h2,
        List.countP_append, countP_deleting_map, countP_connupd_map,
        countP_comp_deleting, countP_comp_connupd, deletingTo]

/-- ConsoleHandler._alwayson(doconnect): clear is_ondemand; when
doconnect, either start a connect (no console and no connect thread in
flight) or ping the held console. -/
def alwayson (st : HandlerState) (doconnect : Bool) : HandlerState × List Ev :=
  let st := { st with isondemand := false }
  if !doconnect then (st, [])
  else if !st.console && !st.connectionthread then (st, [.spawnConnect])
  else (st, [.ping])

/-- ConsoleHandler._ondemand: set is_ondemand; with no live session and
a held console, disconnect the backend. -/
def ondemand_ (st : HandlerState) : HandlerState × List Ev :=
  let st := { st with isondemand := true }
  if st.livesessions.isEmpty && st.console then disconnect_ st else (st, [])

/-- The console.logging branch of ConsoleHandler._attribschanged,
followed by the function-final reconnect spawn.  logvalue is the new
attribute value ('full' when the key vanished, per the KeyError
default); nchanged is len(nodeattribs[node]), the number of changed
attributes. -/
def attribschanged_logging (st : HandlerState) (logvalue : String)
    (nchanged : Nat) : HandlerState × List Ev :=
  let st := { st with dologging := true }
  if logvalue = "full" ∨ logvalue = "" then
    let onlylogging := nchanged == 1
    let a := alwayson st onlylogging
    if onlylogging then a
    else if !a.1.isondemand || !a.1.livesessions.isEmpty then
      (a.1, a.2 ++ [.spawnConnect])
    else a
  else
    let a := ondemand_ st
    let st2 :=
      if logvalue = "none" ∨ logvalue = "memory" then
        { a.1 with dologging := false }
      else a.1
    if !st2.isondemand || !st2.livesessions.isEmpty then
      (st2, a.2 ++ [.spawnConnect])
    else (st2, a.2)

/-- ConsoleHandler.check_isondemand, restricted to the console.logging
attribute (the trailing check_collective call only touches is_local).
attrs is none when the node has no attribute map, some none when
console.logging is absent, and some (some v) for a value v. -/
def check_isondemand (st : HandlerState) (attrs : Option (Option String)) :
    HandlerState :=
  let st := { st with dologging := true }
  match attrs with
  | none => { st with isondemand := false }
  | some none => { st with isondemand := false }
  | some (some v) =>
    let st :=
      if ¬(v = "full" ∨ v = "" ∨ v = "buffer") then
        { st with isondemand := true }
      else st
    if v = "none" ∨ v = "memory" then { st with dologging := false } else st

/-- alwayson never changes any field except is_ondemand. -/
theorem alwayson_state (st : HandlerState) (d : Bool) :
    (alwayson st d).1 = { st with isondemand := false } := by
  simp only [alwayson]
  split
  · rfl
  · split <;> rfl

/-- alwayson never logs a consoledisconnect event. -/
theorem alwayson_no_disc (st : HandlerState) (d : Bool) :
    Ev.logev .consoledisconnect ∉ (alwayson st d).2 := by
  simp only [alwayson]
  split
  · simp
  · split <;> simp

/-- _disconnect leaves is_ondemand, do_logging and the subscriber set
untouched. -/
theorem disconnect_untouched (st : HandlerState) :
    (disconnect_ st).1.isondemand = st.isondemand ∧
    (disconnect_ st).1.dologging = st.dologging ∧
    (disconnect_ st).1.livesessions = st.livesessions := by
  simp only [disconnect_, clearbuffer]
  split <;> exact ⟨rfl, rfl, rfl⟩

/-- _ondemand always leaves is_ondemand set. -/
theorem ondemand_isondemand (st : HandlerState) :
    (ondemand_ st).1.isondemand = true := by
  simp only [ondemand_]
  split
  · rw [(disconnect_untouched _).1]
  · rfl

/-- _ondemand leaves do_logging untouched. -/
theorem ondemand_dologging (st : HandlerState) :
    (ondemand_ st).1.dologging = st.dologging := by
  simp only [ondemand_]
  split
  · rw [(disconnect_untouched _).2.1]
  · rfl

/-- C4 counterexample: changing console.logging to buffer, as the only
changed attribute, makes the handler on-demand (the claim says
always-on) and, with no subscribers attached, disconnects the held
backend (the claim says no unnecessary disconnect occurs for a
logging-only change). -/
theorem c4_counterexample :
    ({ sampleState with livesessions := [] } : HandlerState).console = true ∧
    (attribschanged_logging { sampleState with livesessions := [] } "buffer" 1).1.isondemand
      = true ∧
    (attribschanged_logging { sampleState with livesessions := [] } "buffer" 1).1.console
      = false := by
  refine ⟨rfl, ?_, ?_⟩ <;> rfl

/-- C4 (amended): on a console.logging change, a value of full or the
empty string makes the handler always-on; none or memory makes it
on-demand with logging disabled; any other value, including buffer,
makes it on-demand with logging enabled; when the new value is full or
empty and console.logging is the only changed attribute, no disconnect
occurs (the console handle, the connect state and the subscriber set
are untouched; the handler at most pings or starts a connect).  Only at
construction does check_isondemand treat buffer like full. -/
theorem c4_amended (st : HandlerState) (logvalue : String) (nchanged : Nat) :
    ((logvalue = "full" ∨ logvalue = "") →
      (attribschanged_logging st logvalue nchanged).1.isondemand = false ∧
      (attribschanged_logging st logvalue nchanged).1.dologging = true) ∧
    ((logvalue = "none" ∨ logvalue = "memory") →
      (attribschanged_logging st logvalue nchanged).1.isondemand = true ∧
      (attribschanged_logging st logvalue nchanged).1.dologging = false) ∧
    (¬(logvalue = "full" ∨ logvalue = "" ∨ logvalue = "none" ∨ logvalue = "memory") →
      (attribschanged_logging st logvalue nchanged).1.isondemand = true ∧
      (attribschanged_logging st logvalue nchanged).1.dologging = true) ∧
    ((logvalue = "full" ∨ logvalue = "") → nchanged = 1 →
      (attribschanged_logging st logvalue nchanged).1.console = st.console ∧
      (attribschanged_logging st logvalue nchanged).1.connectstate = st.connectstate ∧
      (attribschanged_logging st logvalue nchanged).1.livesessions = st.livesessions ∧
      Ev.logev .consoledisconnect ∉ (attribschanged_logging st logvalue nchanged).2) ∧
    (check_isondemand st (some (some "buffer"))).isondemand = st.isondemand ∧
    (attribschanged_logging st "buffer" 1).1.isondemand = true := by
  refine ⟨?_, ?_, ?_, ?_, ?_, ?_⟩
  · intro h
    simp only [attribschanged_logging, if_pos h]
    split
    · rw [alwayson_state]
      exact ⟨rfl, rfl⟩
    · split
      · rw [alwayson_state]
        exact ⟨rfl, rfl⟩
      · rw [alwayson_state]
        exact ⟨rfl, rfl⟩
  · intro h
    have hne : ¬(logvalue = "full" ∨ logvalue = "") := by
      rcases h with h | h <;> subst h <;> simp
    simp only [attribschanged_logging, if_neg hne, if_pos h]
    constructor
    · split <;> simp [ondemand_isondemand]
    · split <;> simp
  · intro h
    push_neg at h
    obtain ⟨h1, h2, h3, h4⟩ := h
    have hne : ¬(logvalue = "full" ∨ logvalue = "") := by tauto
    have hnm : ¬(logvalue = "none" ∨ logvalue = "memory") := by tauto
    simp only [attribschanged_logging, if_neg hne, if_neg hnm]
    constructor
    · split <;> simp [ondemand_isondemand]
    · split <;> simp [ondemand_dologging]
  · intro h hn
    subst hn
    simp only [attribschanged_logging, if_pos h]
    have honly : ((1 : Nat) == 1) = true := rfl
    rw [if_pos honly]
    rw [alwayson_state]
    exact ⟨rfl, rfl, rfl, alwayson_no_disc _ _⟩
  · simp [check_isondemand]
  · have hne : ¬(("buffer" : String) = "full" ∨ ("buffer" : String) = "") := by simp
    have hnm : ¬(("buffer" : String) = "none" ∨ ("buffer" : String) = "memory") := by simp
    simp only [attribschanged_logging, if_neg hne, if_neg hnm]
    split <;> simp [ondemand_isondemand]

/-- C4 witness: the amended theorem instantiated at logvalue none with
two changed attributes, discharging the none-or-memory hypothesis. -/
theorem c4_witness :
    (("none" : String) = "none" ∨ ("none" : String) = "memory") ∧
    ((attribschanged_logging sampleState "none" 2).1.isondemand = true ∧
     (attribschanged_logging sampleState "none" 2).1.dologging = false) :=
  ⟨Or.inl rfl, (c4_amended sampleState "none" 2).2.1 (Or.inl rfl)⟩

/-- The eventdata loop of detachsession: count remaining sessions with
the same username, stopping as soon as the count passes 1. -/
def countEdata : List Session → String → Nat → Nat
  | [], _, e => e
  | s :: rest, u, e =>
    let e' := if s.username = u then e + 1 else e
    if e' > 1 then e' else countEdata rest u e'

/-- The eventdata loop computes the remaining same-user session count
capped at 2. -/
theorem countEdata_eq (u : String) :
    ∀ (l : List Session) (e : Nat), e ≤ 1 →
      countEdata l u e = min (e + l.countP (fun s => s.username == u)) 2 := by
  intro l
  induction l with
  | nil => intro e he; simp [countEdata]; omega
  | cons s rest ih =>
    intro e he
    by_cases h : s.username = u
    · simp only [countEdata, if_pos h]
      by_cases h2 : e + 1 > 1
      · rw [if_pos h2]
        have : e = 1 := by omega
        subst this
        have hc : List.countP (fun s => s.username == u) (s :: rest)
            = 1 + List.countP (fun s => s.username == u) rest := by
          simp [List.countP_cons, h]
          omega
        omega
      · rw [if_neg h2]
        rw [ih (e + 1) (by omega)]
        have hc : List.countP (fun s => s.username == u) (s :: rest)
            = 1 + List.countP (fun s => s.username == u) rest := by
          simp [List.countP_cons, h]
          omega
        omega
    · simp only [countEdata, if_neg h]
      rw [if_neg (by omega)]
      rw [ih e he]
      have hc : List.countP (fun s => s.username == u) (s :: rest)
          = List.countP (fun s => s.username == u) rest := by
        simp [List.countP_cons, h]
      omega

/-- ConsoleHandler.detachsession: discard the session, compute the
capped same-user count, log clientdisconnect, send the new client
count, and when on-demand with no session left disconnect the
backend. -/
def detachsession (st : HandlerState) (ses : Session) : HandlerState × List Ev :=
  let live := st.livesessions.filter (fun s => s != ses)
  let edata := countEdata live ses.username 0
  let st := { st with livesessions := live }
  let evs := logIf st (.clientdisconnect ses.username edata)
    ++ sendRcpts st (.clientcount live.length)
  if st.isondemand && live.isEmpty then
    let (st2, evs2) := disconnect_ st
    (st2, evs ++ evs2)
  else (st, evs)

/-- C7 counterexample: an on-demand handler whose console.logging is
none (do_logging false) has an attached session, yet detaching it logs
no clientdisconnect event at all, because ConsoleHandler.log drops
every event while _dologging is false. -/
theorem c7_counterexample :
    ({ sampleState with isondemand := true, dologging := false } : HandlerState).isondemand
      = true ∧
    ({ sampleState with isondemand := true, dologging := false } : HandlerState).livesessions
      = [⟨1, "alice"⟩] ∧
    ((detachsession { sampleState with isondemand := true, dologging := false }
        ⟨1, "alice"⟩).2.countP
      (fun e => match e with
        | .logev (.clientdisconnect _ _) => true
        | _ => false)) = 0 := by
  refine ⟨rfl, rfl, ?_⟩
  decide

/-- C7 (amended): for an on-demand handler with logging enabled,
detaching a session removes it from the subscriber set, logs a
clientdisconnect event whose eventdata is the remaining count of
sessions for that username capped at 2, and when no subscriber remains
the backend handle is dropped.  When do_logging is false the
clientdisconnect event is suppressed. -/
theorem c7_amended (st : HandlerState) (ses : Session)
    (hod : st.isondemand = true) (hlog : st.dologging = true) :
    ses ∉ (detachsession st ses).1.livesessions ∧
    Ev.logev (.clientdisconnect ses.username
        (min ((st.livesessions.filter (fun s => s != ses)).countP
          (fun s => s.username == ses.username)) 2))
      ∈ (detachsession st ses).2 ∧
    ((detachsession st ses).1.livesessions.isEmpty = true →
      (detachsession st ses).1.console = false) := by
  have hcount : countEdata (st.livesessions.filter (fun s => s != ses)) ses.username 0
      = min ((st.livesessions.filter (fun s => s != ses)).countP
          (fun s => s.username == ses.username)) 2 := by
    rw [countEdata_eq ses.username _ 0 (by omega)]
    omega
  refine ⟨?_, ?_, ?_⟩
  · simp only [detachsession]
    split
    · simp only [disconnect_, clearbuffer]
      split <;> simp [List.mem_filter]
    · simp [List.mem_filter]
  · simp only [detachsession, ← hcount]
    split <;> simp [logIf, hlog]
  · simp only [detachsession]
    split
    case isTrue hc =>
      simp only [disconnect_, clearbuffer]
      split <;> intro _ <;> simp_all
    case isFalse hc =>
      intro hemp
      exfalso
      simp_all

/-- C7 witness: the amended theorem at a concrete on-demand handler
with logging enabled and the single attached session detached. -/
theorem c7_witness :
    ({ sampleState with isondemand := true } : HandlerState).isondemand = true ∧
    ({ sampleState with isondemand := true } : HandlerState).dologging = true ∧
    ((⟨1, "alice"⟩ : Session)
        ∉ (detachsession { sampleState with isondemand := true } ⟨1, "alice"⟩).1.livesessions ∧
     Ev.logev (.clientdisconnect "alice"
         (min ((({ sampleState with isondemand := true } : HandlerState).livesessions.filter
           (fun s => s != (⟨1, "alice"⟩ : Session))).countP
           (fun s => s.username == "alice")) 2))
       ∈ (detachsession { sampleState with isondemand := true } ⟨1, "alice"⟩).2 ∧
     ((detachsession { sampleState with isondemand := true } ⟨1, "alice"⟩).1.livesessions.isEmpty
        = true →
      (detachsession { sampleState with isondemand := true } ⟨1, "alice"⟩).1.console = false)) :=
  ⟨rfl, rfl, c7_amended { sampleState with isondemand := true } ⟨1, "alice"⟩ rfl rfl⟩

/-- Is b a UTF-8 continuation byte. -/
def contB (b : Nat) : Bool := 0x80 ≤ b && b ≤ 0xBF

/-- One byte of the incremental strict UTF-8 decoder owned by the
handler (codecs.getincrementaldecoder('utf-8')).  pending holds the
bytes of an incomplete sequence; the result is the emitted codepoint,
if any, and the new pending bytes, or an error exactly where CPython
raises UnicodeDecodeError (invalid lead bytes, invalid continuation
ranges, overlong forms, surrogates, values beyond U+10FFFF). -/
def utf8step (pending : List Nat) (b : Nat) : Except Unit (Option Nat × List Nat) :=
  match pending with
  | [] =>
    if b < 0x80 then .ok (some b, [])
    else if 0xC2 ≤ b && b ≤ 0xDF then .ok (none, [b])
    else if 0xE0 ≤ b && b ≤ 0xEF then .ok (none, [b])
    else if 0xF0 ≤ b && b ≤ 0xF4 then .ok (none, [b])
    else .error ()
  | [l] =>
    if 0xC2 ≤ l && l ≤ 0xDF then
      if contB b then .ok (some ((l - 0xC0) * 0x40 + (b - 0x80)), [])
      else .error ()
    else if 0xE0 ≤ l && l ≤ 0xEF then
      if (if l = 0xE0 then 0xA0 ≤ b && b ≤ 0xBF
          else if l = 0xED then 0x80 ≤ b && b ≤ 0x9F
          else contB b) then .ok (none, [l, b])
      else .error ()
    else if 0xF0 ≤ l && l ≤ 0xF4 then
      if (if l = 0xF0 then 0x90 ≤ b && b ≤ 0xBF
          else if l = 0xF4 then 0x80 ≤ b && b ≤ 0x8F
          else contB b) then .ok (none, [l, b])
      else .error ()
    else .error ()
  | [l, c1] =>
    if 0xE0 ≤ l && l ≤ 0xEF then
      if (if l = 0xE0 then 0xA0 ≤ c1 && c1 ≤ 0xBF
          else if l = 0xED then 0x80 ≤ c1 && c1 ≤ 0x9F
          else contB c1) && contB b then
        .ok (some ((l - 0xE0) * 0x1000 + (c1 - 0x80) * 0x40 + (b - 0x80)), [])
      else .error ()
    else if 0xF0 ≤ l && l ≤ 0xF4 then
      if (if l = 0xF0 then 0x90 ≤ c1 && c1 ≤ 0xBF
          else if l = 0xF4 then 0x80 ≤ c1 && c1 ≤ 0x8F
          else contB c1) && contB b then .ok (none, [l, c1, b])
      else .error ()
    else .error ()
  | [l, c1, c2] =>
    if 0xF0 ≤ l && l ≤ 0xF4 then
      if (if l = 0xF0 then 0x90 ≤ c1 && c1 ≤ 0xBF
          else if l = 0xF4 then 0x80 ≤ c1 && c1 ≤ 0x8F
          else contB c1) && contB c2 && contB b then
        .ok (some ((l - 0xF0) * 0x40000 + (c1 - 0x80) * 0x1000
          + (c2 - 0x80) * 0x40 + (b - 0x80)), [])
      else .error ()
    else .error ()
  | _ => .error ()

/-- decoder.decode(data): run the incremental decoder over a chunk.
Returns the decoded codepoints and the pending tail, or the error the
whole call raises (in which case nothing is emitted). -/
def utf8decodeLoop : List Nat → List Nat → List Nat → Except Unit (List Nat × List Nat)
  | pending, acc, [] => .ok (acc, pending)
  | pending, acc, b :: rest =>
    match utf8step pending b with
    | .error _ => .error ()
    | .ok (none, p) => utf8decodeLoop p acc rest
    | .ok (some u, p) => utf8decodeLoop p (acc ++ [u]) rest

/-- The high half of the CP437 decoding table (bytes 0x80 to 0xFF), as
Unicode codepoints, matching CPython's cp437 codec. -/
def cp437hi : List Nat :=
  [0xC7, 0xFC, 0xE9, 0xE2, 0xE4, 0xE0, 0xE5, 0xE7,
   0xEA, 0xEB, 0xE8, 0xEF, 0xEE, 0xEC, 0xC4, 0xC5,
   0xC9, 0xE6, 0xC6, 0xF4, 0xF6, 0xF2, 0xFB, 0xF9,
   0xFF, 0xD6, 0xDC, 0xA2, 0xA3, 0xA5, 0x20A7, 0x192,
   0xE1, 0xED, 0xF3, 0xFA, 0xF1, 0xD1, 0xAA, 0xBA,
   0xBF, 0x2310, 0xAC, 0xBD, 0xBC, 0xA1, 0xAB, 0xBB,
   0x2591, 0x2592, 0x2593, 0x2502, 0x2524, 0x2561, 0x2562, 0x2556,
   0x2555, 0x2563, 0x2551, 0x2557, 0x255D, 0x255C, 0x255B, 0x2510,
   0x2514, 0x2534, 0x252C, 0x251C, 0x2500, 0x253C, 0x255E, 0x255F,
   0x255A, 0x2554, 0x2569, 0x2566, 0x2560, 0x2550, 0x256C, 0x2567,
   0x2568, 0x2564, 0x2565, 0x2559, 0x2558, 0x2552, 0x2553, 0x256B,
   0x256A, 0x2518, 0x250C, 0x2588, 0x2584, 0x258C, 0x2590, 0x2580,
   0x3B1, 0xDF, 0x393, 0x3C0, 0x3A3, 0x3C3, 0xB5, 0x3C4,
   0x3A6, 0x398, 0x3A9, 0x3B4, 0x221E, 0x3C6, 0x3B5, 0x2229,
   0x2261, 0xB1, 0x2265, 0x2264, 0x2320, 0x2321, 0xF7, 0x2248,
   0xB0, 0x2219, 0xB7, 0x221A, 0x207F, 0xB2, 0x25A0, 0xA0]

/-- data.decode('cp437'): single-byte decode, identity below 0x80. -/
def cp437 (b : Nat) : Nat :=
  if b < 0x80 then b else ((cp437hi.get? (b - 0x80)).getD 0)

/-- The ansichars translation: 0x18 to an up arrow, 0x19 to a down
arrow. -/
def ansitransCp (u : Nat) : Nat :=
  if u = 0x18 then 0x2191 else if u = 0x19 then 0x2193 else u

/-- data.translate(ansichars), applied only when shiftin is None. -/
def transIf (shiftin : Option Char) (us : List Nat) : List Nat :=
  match shiftin with
  | none => us.map ansitransCp
  | some _ => us

/-- UTF-8 encoding of one Unicode codepoint. -/
def utf8encodeCp (u : Nat) : List Nat :=
  if u < 0x80 then [u]
  else if u < 0x800 then [0xC0 + u / 0x40, 0x80 + u % 0x40]
  else if u < 0x10000 then
    [0xE0 + u / 0x1000, 0x80 + (u / 0x40) % 0x40, 0x80 + u % 0x40]
  else
    [0xF0 + u / 0x40000, 0x80 + (u / 0x1000) % 0x40,
     0x80 + (u / 0x40) % 0x40, 0x80 + u % 0x40]

/-- data.encode('utf-8') over a codepoint sequence. -/
def utf8encodeAll (us : List Nat) : List Nat := (us.map utf8encodeCp).flatten

/-- _utf8_normalize: decode with the stateful decoder, on decode
failure reset the decoder to a fresh UTF-8 state and decode the same
chunk as CP437, translate arrows when shift-in is not latched, then
re-encode as UTF-8.  Returns the output bytes and the new decoder
state. -/
def utf8norm (data : List Nat) (shiftin : Option Char) (decoder : List Nat) :
    List Nat × List Nat :=
  match utf8decodeLoop decoder [] data with
  | .ok (us, pending) => (utf8encodeAll (transIf shiftin us), pending)
  | .error _ => (utf8encodeAll (transIf shiftin (data.map cp437)), [])

/-- A Unicode scalar value: below the surrogates or between them and
U+110000. -/
def validCp (u : Nat) : Prop := u < 0xD800 ∨ (0xE000 ≤ u ∧ u < 0x110000)

/-- The RFC 3629 byte automaton: (need, lo, hi) is the number of
continuation bytes still expected and the allowed range for the next
one; none is the rejection state. -/
def u8step (s : Option (Nat × Nat × Nat)) (b : Nat) : Option (Nat × Nat × Nat) :=
  match s with
  | none => none
  | some (need, lo, hi) =>
    if need = 0 then
      if b < 0x80 then some (0, 0, 0)
      else if 0xC2 ≤ b && b ≤ 0xDF then some (1, 0x80, 0xBF)
      else if b = 0xE0 then some (2, 0xA0, 0xBF)
      else if b = 0xED then some (2, 0x80, 0x9F)
      else if 0xE1 ≤ b && b ≤ 0xEF then some (2, 0x80, 0xBF)
      else if b = 0xF0 then some (3, 0x90, 0xBF)
      else if 0xF1 ≤ b && b ≤ 0xF3 then some (3, 0x80, 0xBF)
      else if b = 0xF4 then some (3, 0x80, 0x8F)
      else none
    else if lo ≤ b && b ≤ hi then
      if need = 1 then some (0, 0, 0) else some (need - 1, 0x80, 0xBF)
    else none

/-- A byte list is valid UTF-8 when the automaton accepts it, ending
at a sequence boundary. -/
def utf8valid (l : List Nat) : Bool :=
  l.foldl u8step (some (0, 0, 0)) == some (0, 0, 0)

/-- Automaton step on an ASCII byte from the start state. -/
theorem u8A (b : Nat) (h : b < 0x80) : u8step (some (0, 0, 0)) b = some (0, 0, 0) := by
  simp [u8step, h]

/-- Automaton step on a two-byte lead. -/
theorem u8L2 (b : Nat) (h : 0xC2 ≤ b ∧ b ≤ 0xDF) :
    u8step (some (0, 0, 0)) b = some (1, 0x80, 0xBF) := by
  have h1 : ¬b < 0x80 := by omega
  have h2 : (0xC2 ≤ b && b ≤ 0xDF) = true := by
    simp only [Bool.and_eq_true, decide_eq_true_eq]; omega
  simp [u8step, h1, h2]

/-- Automaton step on the lead byte E0. -/
theorem u8LE0 : u8step (some (0, 0, 0)) 0xE0 = some (2, 0xA0, 0xBF) := by rfl

/-- Automaton step on the lead byte ED. -/
theorem u8LED : u8step (some (0, 0, 0)) 0xED = some (2, 0x80, 0x9F) := by rfl

/-- Automaton step on a generic three-byte lead other than E0 and ED. -/
theorem u8LE (b : Nat) (h : 0xE1 ≤ b ∧ b ≤ 0xEF ∧ b ≠ 0xED) :
    u8step (some (0, 0, 0)) b = some (2, 0x80, 0xBF) := by
  have h1 : ¬b < 0x80 := by omega
  have h2 : (0xC2 ≤ b && b ≤ 0xDF) = false := by
    simp only [Bool.and_eq_false_iff, decide_eq_false_iff_not, not_le]; omega
  have h3 : b ≠ 0xE0 := by omega
  have h4 : b ≠ 0xED := h.2.2
  have h5 : (0xE1 ≤ b && b ≤ 0xEF) = true := by
    simp only [Bool.and_eq_true, decide_eq_true_eq]; omega
  simp [u8step, h1, h2, h3, h4, h5]

/-- Automaton step on the lead byte F0. -/
theorem u8LF0 : u8step (some (0, 0, 0)) 0xF0 = some (3, 0x90, 0xBF) := by rfl

/-- Automaton step on a generic four-byte lead F1 to F3. -/
theorem u8LF (b : Nat) (h : 0xF1 ≤ b ∧ b ≤ 0xF3) :
    u8step (some (0, 0, 0)) b = some (3, 0x80, 0xBF) := by
  have h1 : ¬b < 0x80 := by omega
  have h2 : (0xC2 ≤ b && b ≤ 0xDF) = false := by
    simp only [Bool.and_eq_false_iff, decide_eq_false_iff_not, not_le]; omega
  have h3 : b ≠ 0xE0 := by omega
  have h4 : b ≠ 0xED := by omega
  have h5 : (0xE1 ≤ b && b ≤ 0xEF) = false := by
    simp only [Bool.and_eq_false_iff, decide_eq_false_iff_not, not_le]; omega
  have h6 : b ≠ 0xF0 := by omega
  have h7 : (0xF1 ≤ b && b ≤ 0xF3) = true := by
    simp only [Bool.and_eq_true, decide_eq_true_eq]; omega
  simp [u8step, h1, h2, h3, h4, h5, h6, h7]

/-- Automaton step on the lead byte F4. -/
theorem u8LF4 : u8step (some (0, 0, 0)) 0xF4 = some (3, 0x80, 0x8F) := by rfl

/-- Automaton step on the final continuation byte of a sequence. -/
theorem u8C1 (lo hi b : Nat) (h : lo ≤ b ∧ b ≤ hi) :
    u8step (some (1, lo, hi)) b = some (0, 0, 0) := by
  have hb : (lo ≤ b && b ≤ hi) = true := by
    simp only [Bool.and_eq_true, decide_eq_true_eq]; omega
  simp [u8step, hb]

/-- Automaton step on the second byte of a three-byte sequence. -/
theorem u8C2 (lo hi b : Nat) (h : lo ≤ b ∧ b ≤ hi) :
    u8step (some (2, lo, hi)) b = some (1, 0x80, 0xBF) := by
  have hb : (lo ≤ b && b ≤ hi) = true := by
    simp only [Bool.and_eq_true, decide_eq_true_eq]; omega
  simp [u8step, hb]

/-- Automaton step on the second byte of a four-byte sequence. -/
theorem u8C3 (lo hi b : Nat) (h : lo ≤ b ∧ b ≤ hi) :
    u8step (some (3, lo, hi)) b = some (2, 0x80, 0xBF) := by
  have hb : (lo ≤ b && b ≤ hi) = true := by
    simp only [Bool.and_eq_true, decide_eq_true_eq]; omega
  simp [u8step, hb]

/-- The automaton consumes the encoding of any scalar value and
returns to the initial state. -/
theorem u8_fold_encode (u : Nat) (h : validCp u) :
    List.foldl u8step (some (0, 0, 0)) (utf8encodeCp u) = some (0, 0, 0) := by
  have hs : u < 0xD800 ∨ 0xE000 ≤ u := by
    rcases h with h | h
    · exact Or.inl h
    · exact Or.inr h.1
  have hup : u < 0x110000 := by
    rcases h with h | h
    · omega
    · exact h.2
  have hd : u < 0x80 ∨ (0x80 ≤ u ∧ u < 0x800) ∨ (0x800 ≤ u ∧ u < 0x10000)
      ∨ (0x10000 ≤ u ∧ u < 0x110000) := by omega
  rcases hd with h1 | h2 | h3 | h4
  · simp only [utf8encodeCp, if_pos h1, List.foldl]
    rw [u8A u h1]
  · simp only [utf8encodeCp, if_neg (by omega : ¬u < 0x80),
      if_pos (by omega : u < 0x800), List.foldl]
    rw [u8L2 _ (by omega), u8C1 _ _ _ (by omega)]
  · simp only [utf8encodeCp, if_neg (by omega : ¬u < 0x80),
      if_neg (by omega : ¬u < 0x800), if_pos (by omega : u < 0x10000), List.foldl]
    have hk : u / 0x1000 ≤ 15 := by omega
    by_cases hk0 : u / 0x1000 = 0
    · rw [show 0xE0 + u / 0x1000 = 0xE0 by omega, u8LE0,
        u8C2 _ _ _ (by omega), u8C1 _ _ _ (by omega)]
    · by_cases hk13 : u / 0x1000 = 13
      · have hsur : u < 0xD800 := by omega
        rw [show 0xE0 + u / 0x1000 = 0xED by omega, u8LED,
          u8C2 _ _ _ (by omega), u8C1 _ _ _ (by omega)]
      · rw [u8LE _ (by omega), u8C2 _ _ _ (by omega), u8C1 _ _ _ (by omega)]
  · simp only [utf8encodeCp, if_neg (by omega : ¬u < 0x80),
      if_neg (by omega : ¬u < 0x800), if_neg (by omega : ¬u < 0x10000), List.foldl]
    have hk : u / 0x40000 ≤ 4 := by omega
    by_cases hk0 : u / 0x40000 = 0
    · rw [show 0xF0 + u / 0x40000 = 0xF0 by omega, u8LF0,
        u8C3 _ _ _ (by omega), u8C2 _ _ _ (by omega), u8C1 _ _ _ (by omega)]
    · by_cases hk4 : u / 0x40000 = 4
      · rw [show 0xF0 + u / 0x40000 = 0xF4 by omega, u8LF4,
          u8C3 _ _ _ (by omega), u8C2 _ _ _ (by omega), u8C1 _ _ _ (by omega)]
      · rw [u8LF _ (by omega), u8C3 _ _ _ (by omega), u8C2 _ _ _ (by omega),
          u8C1 _ _ _ (by omega)]

/-- The encoding of a list of scalar values is accepted by the UTF-8
automaton. -/
theorem utf8valid_encodeAll (us : List Nat) (h : ∀ u ∈ us, validCp u) :
    utf8valid (utf8encodeAll us) = true := by
  induction us with
  | nil => rfl
  | cons u rest ih =>
    have hrest := ih (fun v hv => h v (List.mem_cons_of_mem u hv))
    have hu := h u (List.mem_cons_self u rest)
    simp only [utf8valid, utf8encodeAll, List.map_cons, List.flatten_cons,
      List.foldl_append, u8_fold_encode u hu] at hrest ⊢
    exact hrest

/-- Every codepoint emitted by a decoder step is a scalar value. -/
theorem utf8step_valid (pending : List Nat) (b u : Nat) (p : List Nat)
    (h : utf8step pending b = .ok (some u, p)) : validCp u := by
  unfold validCp
  match pending with
  | [] =>
    simp only [utf8step] at h
    repeat' split at h
    all_goals simp_all [contB]
    all_goals omega
  | [l] =>
    simp only [utf8step] at h
    repeat' split at h
    all_goals simp_all [contB]
    all_goals omega
  | [l, c1] =>
    simp only [utf8step] at h
    repeat' split at h
    all_goals simp_all [contB]
    all_goals omega
  | [l, c1, c2] =>
    simp only [utf8step] at h
    repeat' split at h
    all_goals simp_all [contB]
    all_goals omega
  | _ :: _ :: _ :: _ :: _ =>
    simp only [utf8step] at h
    simp_all

/-- Every codepoint collected by decoder.decode is a scalar value. -/
theorem utf8decodeLoop_valid :
    ∀ (data pending acc : List Nat), (∀ u ∈ acc, validCp u) →
      ∀ us p, utf8decodeLoop pending acc data = .ok (us, p) →
      ∀ u ∈ us, validCp u := by
  intro data
  induction data with
  | nil =>
    intro pending acc hacc us p h u hu
    simp only [utf8decodeLoop, Except.ok.injEq, Prod.mk.injEq] at h
    obtain ⟨h1, -⟩ := h
    subst h1
    exact hacc u hu
  | cons b rest ih =>
    intro pending acc hacc us p h u hu
    simp only [utf8decodeLoop] at h
    split at h
    · exact absurd h (by simp)
    case h_2 _ px heq =>
      exact ih px acc hacc us p h u hu
    case h_3 _ v px heq =>
      refine ih px (acc ++ [v]) ?_ us p h u hu
      intro w hw
      rcases List.mem_append.mp hw with hw | hw
      · exact hacc w hw
      · rcases List.mem_singleton.mp hw with rfl
        exact utf8step_valid pending b w px heq

/-- CP437 decoding always yields a scalar value. -/
theorem cp437_valid (b : Nat) : validCp (cp437 b) := by
  by_cases h : b < 0x80
  · simp only [cp437, if_pos h]
    left
    omega
  · simp only [cp437, if_neg h]
    have hall : ∀ x ∈ cp437hi, x < 0xD800 := by decide
    cases hg : cp437hi.get? (b - 0x80) with
    | none =>
      simp only [hg, Option.getD_none]
      left
      omega
    | some x =>
      simp only [hg, Option.getD_some]
      left
      exact hall x (List.get?_mem hg)

/-- The arrow translation preserves scalar values. -/
theorem ansitransCp_valid (u : Nat) (h : validCp u) : validCp (ansitransCp u) := by
  simp only [ansitransCp]
  split
  · left; omega
  · split
    · left; omega
    · exact h

/-- Every codepoint surviving transIf is a scalar value. -/
theorem transIf_valid (shiftin : Option Char) (us : List Nat)
    (h : ∀ u ∈ us, validCp u) : ∀ u ∈ transIf shiftin us, validCp u := by
  cases shiftin with
  | none =>
    intro u hu
    simp only [transIf, List.mem_map] at hu
    obtain ⟨v, hv, rfl⟩ := hu
    exact ansitransCp_valid v (h v hv)
  | some c => exact h

/-- C6: the byte normaliser always produces valid UTF-8; when the
incremental decode of the chunk fails it resets the decoder to a fresh
state (empty pending bytes) and decodes the same chunk as CP437; and
with shift-in unset the byte 0x18 becomes U+2191 and 0x19 becomes
U+2193 in the re-encoded UTF-8 output (with shift-in latched they pass
through untranslated). -/
theorem c6_thm (data : List Nat) (shiftin : Option Char) (decoder : List Nat) :
    utf8valid (utf8norm data shiftin decoder).1 = true ∧
    (utf8decodeLoop decoder [] data = .error () →
      utf8norm data shiftin decoder
        = (utf8encodeAll (transIf shiftin (data.map cp437)), [])) ∧
    utf8norm [0x18] none [] = ([0xE2, 0x86, 0x91], []) ∧
    utf8norm [0x19] none [] = ([0xE2, 0x86, 0x93], []) ∧
    utf8norm [0x18] (some '0') [] = ([0x18], []) := by
  refine ⟨?_, ?_, by decide, by decide, by decide⟩
  · simp only [utf8norm]
    cases hdec : utf8decodeLoop decoder [] data with
    | ok v =>
      obtain ⟨us, pending⟩ := v
      exact utf8valid_encodeAll _
        (transIf_valid shiftin us
          (utf8decodeLoop_valid data decoder [] (by simp) us pending hdec))
    | error e =>
      exact utf8valid_encodeAll _
        (transIf_valid shiftin (data.map cp437)
          (fun u hu => by
            obtain ⟨b, -, rfl⟩ := List.mem_map.mp hu
            exact cp437_valid b))
  · intro herr
    simp only [utf8norm, herr]

/-- C6 witness: the chunk C3 28 is rejected by the incremental decoder
(28 is not a continuation byte), so the normaliser falls back to CP437
for the whole chunk with a fresh decoder state. -/
theorem c6_witness :
    utf8decodeLoop [] [] [0xC3, 0x28] = .error () ∧
    utf8norm [0xC3, 0x28] none []
      = (utf8encodeAll (transIf none ([0xC3, 0x28].map cp437)), []) :=
  ⟨rfl, (c6_thm [0xC3, 0x28] none []).2.1 rfl⟩

/-- ConsoleHandler._got_disconnected: transition to unconnected (with
log and notification) when not already there, then reconnect
immediately if alive, else clear the buffer. -/
def got_disconnected (st : HandlerState) : HandlerState × List Ev :=
  let r :=
    if st.connectstate ≠ "unconnected" then
      let st := { st with connectstate := "unconnected" }
      (st, logIf st .consoledisconnect ++ sendRcpts st (.connUpd "unconnected" none))
    else (st, ([] : List Ev))
  if r.1.isalive then (r.1, r.2 ++ [.spawnConnect]) else (clearbuffer r.1, r.2)

/-- Data delivered to the handler callback: the integer Disconnect
sentinel from the console interface, any other integer, or a byte
chunk. -/
inductive CData where
  | disconnectEvt
  | otherInt (n : Int)
  | bytes (b : List Nat)
  deriving DecidableEq, Repr

/-- feedbuffer: append the chunk to the stream determining the
emulator state. -/
def feedbuffer (st : HandlerState) (data : List Nat) : HandlerState :=
  { st with bufimage := st.bufimage ++ data }

/-- The mode-latch sequences scanned for in the stream. -/
def seq1l : List Nat := sbytes "\x1b[?1l"

def seq1h : List Nat := sbytes "\x1b[?1h"

def seqShift : List Nat := sbytes "\x1b)0"

/-- Python's in operator on byte strings: does pat occur contiguously
inside the haystack. -/
def containsSeq (pat : List Nat) : List Nat → Bool
  | [] => pat.isEmpty
  | b :: rest => pat.isPrefixOf (b :: rest) || containsSeq pat rest

/-- ConsoleHandler._handle_console_output at monotonic time now:
handle the disconnect sentinel, ignore empty chunks, latch terminal
modes, log with the mode bits, stamp lasttime, feed the emulator,
flush a pending clear, and fan out the normalised bytes. -/
def handle_console_output (st : HandlerState) (now : Nat) (d : CData) :
    HandlerState × List Ev :=
  match d with
  | .disconnectEvt => got_disconnected st
  | .otherInt _ => (st, [])
  | .bytes data =>
    if data = [] then (st, [])
    else
      let st := if containsSeq seq1l data then { st with appmodedetected := false } else st
      let st := if containsSeq seq1h data then { st with appmodedetected := true } else st
      let st := if containsSeq seqShift data then { st with shiftin := some '0' } else st
      let eventdata := (if st.appmodedetected then 1 else 0)
        + (if st.shiftin.isSome then 2 else 0)
      let evs := logIf st (.dataLog data eventdata)
      let st := { st with lasttime := now }
      let st := feedbuffer st data
      let r :=
        if st.clearpending then
          let st := { st with clearpending := false }
          let st := feedbuffer st (sbytes "\x1bc")
          (st, evs ++ sendRcpts st (.bytes (sbytes "\x1bc")))
        else (st, evs)
      let n := utf8norm data r.1.shiftin r.1.utf8state
      let st := { r.1 with utf8state := n.2 }
      (st, r.2 ++ sendRcpts st (.bytes n.1))

/-- ConsoleHandler.get_buffer_age at monotonic time now: False (none)
until a first chunk has stamped lasttime, then the elapsed time. -/
def get_buffer_age (st : HandlerState) (now : Nat) : Option Int :=
  if st.lasttime ≠ 0 then some ((now : Int) - (st.lasttime : Int)) else none

/-- ConsoleSession.get_buffer_age: forwards to the handler. -/
def session_get_buffer_age (conshdl : HandlerState) (now : Nat) : Option Int :=
  get_buffer_age conshdl now

/-- An input that carries no console payload: the disconnect sentinel,
another integer, or an empty chunk. -/
def quietInput : CData → Bool
  | .bytes b => b.isEmpty
  | _ => true

/-- Quiet inputs never touch lasttime. -/
theorem quiet_keeps_lasttime (st : HandlerState) (now : Nat) (d : CData)
    (h : quietInput d = true) :
    (handle_console_output st now d).1.lasttime = st.lasttime := by
  cases d with
  | disconnectEvt =>
    simp only [handle_console_output, got_disconnected, clearbuffer]
    split <;> split <;> rfl
  | otherInt n => rfl
  | bytes b =>
    have hb : b = [] := by simpa [quietInput] using h
    subst hb
    rfl

/-- C10: get_buffer_age returns the non-number False (modelled none)
exactly while lasttime is still zero, i.e. while no non-empty chunk
has ever been received: a non-empty chunk stamps lasttime with the
current monotonic time, every other input leaves it untouched, and
afterwards the call returns now minus lasttime.  The session-level
get_buffer_age forwards the handler value unchanged. -/
theorem c10_thm (st : HandlerState) (now : Nat) :
    (st.lasttime = 0 → get_buffer_age st now = none) ∧
    (st.lasttime ≠ 0 →
      get_buffer_age st now = some ((now : Int) - (st.lasttime : Int))) ∧
    (∀ b : List Nat, b ≠ [] →
      (handle_console_output st now (.bytes b)).1.lasttime = now) ∧
    (handle_console_output st now .disconnectEvt).1.lasttime = st.lasttime ∧
    (∀ n : Int, (handle_console_output st now (.otherInt n)).1.lasttime = st.lasttime) ∧
    (handle_console_output st now (.bytes [])).1.lasttime = st.lasttime ∧
    (∀ inputs : List (Nat × CData), (∀ q ∈ inputs, quietInput q.2 = true) →
      (inputs.foldl (fun s q => (handle_console_output s q.1 q.2).1) st).lasttime
        = st.lasttime) ∧
    session_get_buffer_age st now = get_buffer_age st now := by
  refine ⟨?_, ?_, ?_, ?_, ?_, ?_, ?_, rfl⟩
  · intro h
    simp [get_buffer_age, h]
  · intro h
    simp [get_buffer_age, h]
  · intro b hb
    simp only [handle_console_output, if_neg hb, feedbuffer]
    repeat' split
    all_goals rfl
  · exact quiet_keeps_lasttime st now .disconnectEvt rfl
  · intro n
    exact quiet_keeps_lasttime st now (.otherInt n) rfl
  · exact quiet_keeps_lasttime st now (.bytes []) rfl
  · intro inputs
    induction inputs generalizing st with
    | nil => intro _; rfl
    | cons q rest ih =>
      intro hq
      have hstep := quiet_keeps_lasttime st q.1 q.2 (hq q (List.mem_cons_self q rest))
      simp only [List.foldl_cons]
      rw [ih _ (fun r hr => hq r (List.mem_cons_of_mem q hr))]
      exact hstep

/-- C10 witness: the theorem applied at the sample state (lasttime
zero), at a non-empty chunk, and at a quiet input sequence. -/
theorem c10_witness :
    (sampleState.lasttime = 0 ∧ get_buffer_age sampleState 5 = none) ∧
    (([0x41] : List Nat) ≠ [] ∧
      (handle_console_output sampleState 7 (.bytes [0x41])).1.lasttime = 7) ∧
    ((∀ q ∈ ([(3, CData.otherInt 0), (4, CData.bytes [])] : List (Nat × CData)),
        quietInput q.2 = true) ∧
      (([(3, CData.otherInt 0), (4, CData.bytes [])] : List (Nat × CData)).foldl
        (fun s q => (handle_console_output s q.1 q.2).1) sampleState).lasttime
        = sampleState.lasttime) :=
  ⟨⟨rfl, (c10_thm sampleState 5).1 rfl⟩,
   ⟨by decide, (c10_thm sampleState 7).2.2.1 [0x41] (by decide)⟩,
   ⟨by decide, (c10_thm sampleState 3).2.2.2.2.2.2.1
      [(3, CData.otherInt 0), (4, CData.bytes [])] (by decide)⟩⟩

/-- ProxyConsole state: only the skipreplay flag matters to the
claims. -/
structure ProxyState where
  skipreplay : Bool
  deriving DecidableEq, Repr

/-- A framed record on the TLS channel to the remote collective
member, as key-value pairs. -/
inductive WireMsg where
  | record (kv : List (String × String))
  | bytes (b : List Nat)
  deriving DecidableEq, Repr

/-- ProxyConsole.get_recent: clear skipreplay and return empty bytes;
the remote sends the replay inline. -/
def proxy_get_recent (p : ProxyState) : List Nat × ProxyState :=
  ([], { p with skipreplay := false })

/-- ProxyConsole.detachsession: one stop record on the wire. -/
def proxy_detachsession : WireMsg := .record [("operation", "stop")]

/-- ProxyConsole.send_break: one break record on the wire; note the
on-wire key carries a trailing colon in the source. -/
def proxy_send_break : WireMsg := .record [("operation:", "break")]

/-- ProxyConsole.reopen: one reopen record, same trailing-colon key. -/
def proxy_reopen : WireMsg := .record [("operation:", "reopen")]

/-- C8: for every proxy state, get_recent returns empty bytes (and
lowers skipreplay so the remote replays inline); detach sends the stop
record under the key operation; send_break and reopen send break and
reopen records whose exact on-wire key is operation with a trailing
colon, kept for wire compatibility. -/
theorem c8_thm (p : ProxyState) :
    (proxy_get_recent p).1 = [] ∧
    (proxy_get_recent p).2.skipreplay = false ∧
    proxy_detachsession = .record [("operation", "stop")] ∧
    proxy_send_break = .record [("operation:", "break")] ∧
    proxy_reopen = .record [("operation:", "reopen")] :=
  ⟨rfl, rfl, rfl, rfl, rfl⟩

/-- ConsoleSession state relevant to destroy: the registered flag set
at construction (and never cleared) and the wake token. -/
structure CSessionState where
  registered : Bool
  evt : Bool
  deriving DecidableEq, Repr

/-- ConsoleSession.destroy: detach when registered, release the wake
token.  The registered flag is left set (the source assigns the unused
reghdl attribute instead of clearing it). -/
def session_destroy (cs : CSessionState) (h : HandlerState) (ses : Session) :
    CSessionState × HandlerState × List Ev :=
  let r := if cs.registered then detachsession h ses else (h, [])
  ({ cs with evt := false }, r.1, r.2)

/-- C9: destroy is not idempotent.  With sessions alice (id 1) and bob
(id 2) attached, destroying alice's session twice runs detachsession
twice: the second call logs a second clientdisconnect event and sends
bob a second clientcount record, because destroy never clears
registered (the guard exists, but the source assigns the vestigial
reghdl attribute instead).  The claim and the spec say the second call
has no further observable effect. -/
theorem c9_bug :
    (session_destroy
        (session_destroy ⟨true, false⟩
          { sampleState with livesessions := [⟨1, "alice"⟩, ⟨2, "bob"⟩] }
          ⟨1, "alice"⟩).1
        (session_destroy ⟨true, false⟩
          { sampleState with livesessions := [⟨1, "alice"⟩, ⟨2, "bob"⟩] }
          ⟨1, "alice"⟩).2.1
        ⟨1, "alice"⟩).2.2
      = [Ev.logev (.clientdisconnect "alice" 0), Ev.sent 2 (.clientcount 1)] ∧
    (session_destroy
        (session_destroy ⟨true, false⟩
          { sampleState with livesessions := [⟨1, "alice"⟩, ⟨2, "bob"⟩] }
          ⟨1, "alice"⟩).1
        (session_destroy ⟨true, false⟩
          { sampleState with livesessions := [⟨1, "alice"⟩, ⟨2, "bob"⟩] }
          ⟨1, "alice"⟩).2.1
        ⟨1, "alice"⟩).2.2 ≠ [] := by
  constructor
  · decide
  · decide

/-- The pyte color names accepted by pytecolors2ansi. -/
inductive AnsiColor where
  | black
  | red
  | green
  | brown
  | blue
  | magenta
  | cyan
  | white
  | default
  deriving DecidableEq, Repr

/-- The pytecolors2ansi dictionary. -/
def pytecolors2ansi : AnsiColor → Nat
  | .black => 0
  | .red => 1
  | .green => 2
  | .brown => 3
  | .blue => 4
  | .magenta => 5
  | .cyan => 6
  | .white => 7
  | .default => 9

/-- One pyte screen cell, with the attribute fields pytechars2line
reads. -/
structure PChar where
  data : Str
  fg : AnsiColor
  bg : AnsiColor
  bold : Bool
  italics : Bool
  underscore : Bool
  strikethrough : Bool
  reverse : Bool
  deriving DecidableEq, Repr

/-- Python str.rstrip and bytes.rstrip whitespace for the characters
that can appear here. -/
def pyws (c : Char) : Bool :=
  c = ' ' || c = '\t' || c = '\n' || c = '\r' || c = '\x0b' || c = '\x0c'

/-- Strip trailing whitespace. -/
def rstripChars (l : Str) : Str := (l.reverse.dropWhile pyws).reverse

def crlf : Str := s2l "\r\n"

def natToStr (n : Nat) : Str := (toString n).data

/-- ';'.join over the collected SGR parameters. -/
def csiJoin (csi : List Nat) : Str :=
  List.intercalate (s2l ";") (csi.map natToStr)

/-- The running state of the pytechars2line loop: the line built so
far, the last-seen attribute values, and whether any non-blank data
was met. -/
structure LineAcc where
  line : Str
  lb : Bool
  li : Bool
  lu : Bool
  ls : Bool
  lr : Bool
  lfg : AnsiColor
  lbg : AnsiColor
  hasdata : Bool
  deriving DecidableEq, Repr

/-- One iteration of the pytechars2line loop: collect changed
attributes into a CSI parameter list, emit it when non-empty, track
non-blank data, append the cell text. -/
def lineStep (acc : LineAcc) (char : PChar) : LineAcc :=
  let p1 :=
    if char.fg ≠ acc.lfg then (([30 + pytecolors2ansi char.fg] : List Nat), char.fg)
    else ([], acc.lfg)
  let p2 :=
    if char.bg ≠ acc.lbg then (p1.1 ++ [40 + pytecolors2ansi char.bg], char.bg)
    else (p1.1, acc.lbg)
  let p3 :=
    if char.bold ≠ acc.lb then (p2.1 ++ [if char.bold then 1 else 22], char.bold)
    else (p2.1, acc.lb)
  let p4 :=
    if char.italics ≠ acc.li then (p3.1 ++ [if char.italics then 3 else 23], char.italics)
    else (p3.1, acc.li)
  let p5 :=
    if char.underscore ≠ acc.lu then
      (p4.1 ++ [if char.underscore then 4 else 24], char.underscore)
    else (p4.1, acc.lu)
  let p6 :=
    if char.strikethrough ≠ acc.ls then
      (p5.1 ++ [if char.strikethrough then 9 else 29], char.strikethrough)
    else (p5.1, acc.ls)
  let p7 :=
    if char.reverse ≠ acc.lr then (p6.1 ++ [if char.reverse then 7 else 27], char.reverse)
    else (p6.1, acc.lr)
  let csi := p7.1
  let line :=
    if csi ≠ [] then acc.line ++ s2l "\x1b[" ++ csiJoin csi ++ s2l "m" else acc.line
  let hasdata := acc.hasdata || !(rstripChars char.data).isEmpty
  let line := line ++ char.data
  { line := line, lb := p3.2, li := p4.2, lu := p5.2, ls := p6.2, lr := p7.2,
    lfg := p1.2, lbg := p2.2, hasdata := hasdata }

/-- The initial loop state: default SGR parameters. -/
def lineInit : LineAcc :=
  { line := s2l "\x1b[m", lb := false, li := false, lu := false, ls := false,
    lr := false, lfg := .default, lbg := .default, hasdata := false }

/-- pytechars2line: render the first maxlen cells of a row (the loop
runs over range(maxlen) and its late break fires at the same point). -/
def pytechars2line (chars : List PChar) (maxlen : Nat) : Str × Bool :=
  let acc := (chars.take maxlen).foldl lineStep lineInit
  (acc.line, acc.hasdata)

/-- The pyte screen as get_recent reads it: the cell grid
(buffer.buffer, one list per line) and the cursor. -/
structure Screen where
  rows : List (List PChar)
  cursor_x : Nat
  cursor_y : Nat

/-- One line of buffer.display: the cell texts joined. -/
def displayLine (r : List PChar) : Str := (r.map (fun c => c.data)).flatten

/-- The maxlen computation of get_recent: the longest right-stripped
display line. -/
def maxlenCalc (rows : List (List PChar)) : Nat :=
  rows.foldl
    (fun m r =>
      if (rstripChars (displayLine r)).length > m then (rstripChars (displayLine r)).length
      else m) 0

/-- The connection-status record returned beside the replay bytes. -/
structure ConnState where
  connectstate : String
  clientcount : Nat
  deriving DecidableEq, Repr

/-- ConsoleHandler.get_recent: home-and-clear prefix, the row loop
holding blank lines in pendingbl, removal of the last CRLF, cursor
restore, shift-in restore, application-mode restore, plus the status
record. -/
def get_recent (scr : Screen) (st : HandlerState) : Str × ConnState :=
  let connstate : ConnState :=
    { connectstate := st.connectstate, clientcount := st.livesessions.length }
  let maxlen := maxlenCalc scr.rows
  let r := scr.rows.foldl
    (fun (acc : Str × Str) row =>
      let nl := pytechars2line row maxlen
      if nl.2 then (acc.1 ++ acc.2 ++ nl.1 ++ crlf, ([] : Str))
      else (acc.1, acc.2 ++ nl.1 ++ crlf))
    (s2l "\x1b[H\x1b[J", ([] : Str))
  let retdata := r.1
  let retdata := if retdata.length > 6 then retdata.take (retdata.length - 2) else retdata
  let retdata := retdata ++ s2l "\x1b[" ++ natToStr (scr.cursor_y + 1) ++ s2l ";"
    ++ natToStr (scr.cursor_x + 1) ++ s2l "H"
  let retdata := retdata ++
    (match st.shiftin with
     | some c => s2l "\x1b)" ++ [c]
     | none => [])
  let retdata := retdata ++
    (if st.appmodedetected then s2l "\x1b[?1h" else s2l "\x1b[?1l")
  (retdata, connstate)

/-- Specification form of the row loop: flush held blank lines when a
non-blank line arrives, drop anything still pending at the end. -/
def emit : List (Str × Bool) → Str → Str
  | [], _ => []
  | p :: rest, pend =>
    if p.2 then pend ++ p.1 ++ crlf ++ emit rest []
    else emit rest (pend ++ p.1 ++ crlf)

/-- Drop the trailing all-blank lines of a rendered screen. -/
def dropTrailingBlanks : List (Str × Bool) → List (Str × Bool)
  | [] => []
  | p :: rest =>
    match dropTrailingBlanks rest with
    | [] => if p.2 then [p] else []
    | q :: r => p :: q :: r

/-- Join rendered lines with CRLF separators. -/
def joinLines : List Str → Str
  | [] => []
  | [l] => l
  | l :: rest => l ++ crlf ++ joinLines rest

/-- The rendered lines of a screen, as get_recent computes them. -/
def renderedRows (scr : Screen) : List (Str × Bool) :=
  scr.rows.map (fun r => pytechars2line r (maxlenCalc scr.rows))

/-- The pendingbl fold equals the header followed by emit. -/
theorem foldl_emit (ls : List (Str × Bool)) :
    ∀ ret pend : Str,
      (ls.foldl
        (fun (acc : Str × Str) p =>
          if p.2 then (acc.1 ++ acc.2 ++ p.1 ++ crlf, ([] : Str))
          else (acc.1, acc.2 ++ p.1 ++ crlf)) (ret, pend)).1 = ret ++ emit ls pend := by
  induction ls with
  | nil => intro ret pend; simp [emit]
  | cons p rest ih =>
    intro ret pend
    by_cases hp : p.2
    · rw [List.foldl_cons]
      simp only [if_pos hp]
      rw [ih]
      simp [emit, hp, List.append_assoc]
    · rw [List.foldl_cons]
      simp only [if_neg hp]
      rw [ih]
      have hpf : p.2 = false := by
        cases h : p.2
        · rfl
        · exact absurd h hp
      simp [emit, hpf, List.append_assoc]

/-- A list with a false any has only blank lines. -/
theorem any_false_blank (ls : List (Str × Bool))
    (h : (ls.any fun x => x.2) = false) : ∀ x ∈ ls, x.2 = false := by
  intro x hx
  cases hxx : x.2
  · rfl
  · exact absurd (List.any_eq_true.mpr ⟨x, hx, hxx⟩) (by simp [h])

/-- A list of blank lines has a false any. -/
theorem blank_any_false (ls : List (Str × Bool))
    (h : ∀ x ∈ ls, x.2 = false) : (ls.any fun x => x.2) = false := by
  cases hra : ls.any fun x => x.2
  · rfl
  · obtain ⟨q, hq, hq2⟩ := List.any_eq_true.mp hra
    rw [h q hq] at hq2
    exact absurd hq2 (by simp)

/-- Without a non-blank line nothing is emitted. -/
theorem emit_all_blank (ls : List (Str × Bool)) :
    ∀ pend, (∀ p ∈ ls, p.2 = false) → emit ls pend = [] := by
  induction ls with
  | nil => intro pend _; rfl
  | cons p rest ih =>
    intro pend h
    have hp := h p (List.mem_cons_self p rest)
    have hrec := ih (pend ++ (p.1 ++ crlf)) (fun q hq => h q (List.mem_cons_of_mem p hq))
    simp [emit, hp, hrec]

/-- dropTrailingBlanks is empty exactly when every line is blank. -/
theorem dtb_nil_iff (ls : List (Str × Bool)) :
    dropTrailingBlanks ls = [] ↔ ∀ p ∈ ls, p.2 = false := by
  induction ls with
  | nil => simp [dropTrailingBlanks]
  | cons p rest ih =>
    cases hr : dropTrailingBlanks rest with
    | nil =>
      have hrest := ih.mp hr
      cases hp : p.2
      · simp only [dropTrailingBlanks, hr]
        rw [if_neg (by simp [hp])]
        constructor
        · intro _
          exact List.forall_mem_cons.mpr ⟨hp, hrest⟩
        · intro _
          rfl
      · simp only [dropTrailingBlanks, hr]
        rw [if_pos hp]
        constructor
        · intro hc
          exact absurd hc (by simp)
        · intro hall
          have := hall p (List.mem_cons_self p rest)
          rw [hp] at this
          exact absurd this (by simp)
    | cons q r =>
      have hrne : dropTrailingBlanks rest ≠ [] := by rw [hr]; simp
      simp only [dropTrailingBlanks, hr]
      constructor
      · intro hc
        exact absurd hc (by simp)
      · intro hall
        exact absurd (ih.mpr (fun x hx => hall x (List.mem_cons_of_mem p hx))) hrne

/-- joinLines distributes over a cons with a non-empty tail. -/
theorem joinLines_cons (x : Str) (xs : List Str) (h : xs ≠ []) :
    joinLines (x :: xs) = x ++ crlf ++ joinLines xs := by
  cases xs with
  | nil => exact absurd rfl h
  | cons y t => rfl

/-- emit in closed form: when some line is non-blank, the pending
prefix followed by the lines up to the last non-blank one joined with
CRLF, with one trailing CRLF; otherwise nothing. -/
theorem emit_formula (ls : List (Str × Bool)) :
    ∀ pend : Str,
      emit ls pend =
        if ls.any (fun p => p.2) = true then
          pend ++ joinLines ((dropTrailingBlanks ls).map Prod.fst) ++ crlf
        else [] := by
  induction ls with
  | nil => intro pend; simp [emit, dropTrailingBlanks]
  | cons p rest ih =>
    intro pend
    cases hp : p.2 with
    | true =>
      have hany : ((p :: rest).any fun x => x.2) = true := by simp [hp]
      rw [if_pos hany]
      cases hr : dropTrailingBlanks rest with
      | nil =>
        have hblank := (dtb_nil_iff rest).mp hr
        have hemit : emit rest [] = [] := emit_all_blank rest [] hblank
        simp [emit, hp, hemit, dropTrailingBlanks, hr, joinLines, List.append_assoc]
      | cons q r =>
        have hrne : dropTrailingBlanks rest ≠ [] := by rw [hr]; simp
        have hrest : (rest.any fun x => x.2) = true := by
          cases hra : rest.any fun x => x.2
          · exact absurd ((dtb_nil_iff rest).mpr (any_false_blank rest hra)) hrne
          · rfl
        have hrec := ih []
        rw [if_pos hrest] at hrec
        simp [emit, hp, hrec, dropTrailingBlanks, hr, joinLines, List.append_assoc]
    | false =>
      cases hr : dropTrailingBlanks rest with
      | nil =>
        have hblank := (dtb_nil_iff rest).mp hr
        have hany : ((p :: rest).any fun x => x.2) = false :=
          blank_any_false _ (List.forall_mem_cons.mpr ⟨hp, hblank⟩)
        rw [hany]
        have hemit : emit (p :: rest) pend = [] :=
          emit_all_blank _ pend (List.forall_mem_cons.mpr ⟨hp, hblank⟩)
        simp [hemit]
      | cons q r =>
        have hrne : dropTrailingBlanks rest ≠ [] := by rw [hr]; simp
        have hrest : (rest.any fun x => x.2) = true := by
          cases hra : rest.any fun x => x.2
          · exact absurd ((dtb_nil_iff rest).mpr (any_false_blank rest hra)) hrne
          · rfl
        have hany : ((p :: rest).any fun x => x.2) = true := by
          simp only [List.any_cons, Bool.or_eq_true]
          exact Or.inr hrest
        rw [if_pos hany]
        have hrec := ih (pend ++ (p.1 ++ crlf))
        rw [if_pos hrest] at hrec
        simp [emit, hp, hrec, dropTrailingBlanks, hr, joinLines, List.append_assoc]

/-- C5: get_recent returns exactly the home-and-clear prefix, then the
rendered lines up to the last non-blank one joined with CRLF (pending
blank lines flushed before a later non-blank line, trailing blanks
dropped), then the 1-indexed cursor restore, then the shift-in
designation when latched, then the application-mode sequence, together
with a status record carrying connectstate and the client count. -/
theorem c5_thm (scr : Screen) (st : HandlerState) :
    get_recent scr st =
      (s2l "\x1b[H\x1b[J"
        ++ joinLines ((dropTrailingBlanks (renderedRows scr)).map Prod.fst)
        ++ s2l "\x1b[" ++ natToStr (scr.cursor_y + 1) ++ s2l ";"
        ++ natToStr (scr.cursor_x + 1) ++ s2l "H"
        ++ (match st.shiftin with
            | some c => s2l "\x1b)" ++ [c]
            | none => [])
        ++ (if st.appmodedetected then s2l "\x1b[?1h" else s2l "\x1b[?1l"),
       { connectstate := st.connectstate, clientcount := st.livesessions.length }) := by
  have hfold :
      (scr.rows.foldl
        (fun (acc : Str × Str) row =>
          let nl := pytechars2line row (maxlenCalc scr.rows)
          if nl.2 then (acc.1 ++ acc.2 ++ nl.1 ++ crlf, ([] : Str))
          else (acc.1, acc.2 ++ nl.1 ++ crlf))
        (s2l "\x1b[H\x1b[J", ([] : Str))).1
      = s2l "\x1b[H\x1b[J" ++ emit (renderedRows scr) [] := by
    rw [renderedRows, ← foldl_emit]
    rw [List.foldl_map]
  simp only [get_recent, hfold, emit_formula]
  by_cases hany : ((renderedRows scr).any fun p => p.2) = true
  · rw [if_pos hany]
    have hdtb : dropTrailingBlanks (renderedRows scr) ≠ [] := by
      intro hc
      have := (dtb_nil_iff _).mp hc
      simp only [List.any_eq_true] at hany
      obtain ⟨q, hq, hq2⟩ := hany
      rw [this q hq] at hq2
      exact absurd hq2 (by simp)
    set J := joinLines ((dropTrailingBlanks (renderedRows scr)).map Prod.fst) with hJ
    have hshape : s2l "\x1b[H\x1b[J" ++ ([] ++ J ++ crlf)
        = (s2l "\x1b[H\x1b[J" ++ J) ++ crlf := by
      simp [List.append_assoc]
    rw [hshape]
    have hlen : ((s2l "\x1b[H\x1b[J" ++ J) ++ crlf).length
        = (s2l "\x1b[H\x1b[J" ++ J).length + 2 := by
      simp [crlf, s2l]
    have hgt : ((s2l "\x1b[H\x1b[J" ++ J) ++ crlf).length > 6 := by
      rw [hlen]
      have : (s2l "\x1b[H\x1b[J" ++ J).length = 6 + J.length := by
        simp [s2l]
        omega
      omega
    rw [if_pos hgt, hlen]
    have htake : ((s2l "\x1b[H\x1b[J" ++ J) ++ crlf).take
        ((s2l "\x1b[H\x1b[J" ++ J).length + 2 - 2) = s2l "\x1b[H\x1b[J" ++ J := by
      have h2 : (s2l "\x1b[H\x1b[J" ++ J).length + 2 - 2
          = (s2l "\x1b[H\x1b[J" ++ J).length := by omega
      rw [h2, List.take_left]
    rw [htake]
  · rw [if_neg hany]
    have hblank : ∀ q ∈ renderedRows scr, q.2 = false := by
      intro q hq
      cases h : q.2
      · rfl
      · exact absurd (List.any_eq_true.mpr ⟨q, hq, h⟩) hany
    have hdtb : dropTrailingBlanks (renderedRows scr) = [] := (dtb_nil_iff _).mpr hblank
    rw [hdtb]
    rw [if_neg (by simp [s2l])]
    all_goals simp [joinLines, List.append_assoc]

end ConfluentConsole
